import Mathlib

/-
Verification of the radial day-planner's time-arithmetic core.

The definitions below are a shallow embedding of the TypeScript sources:
  - src/components/types.ts   (the PlannerTask record)
  - src/app/page.tsx          (the schedule mutators, `within`, `remaining`, JSON export)
  - src/lib/export.ts         (ICS generation and the calendar-export filters)

JavaScript arithmetic is modeled on `Int`: the JS `%` operator is the truncated
remainder (`Int.tmod`), `Math.floor` division is `Int.fdiv`, and
`Math.round(x / 5) * 5` on an integer `x` is computed exactly (see `roundTo5`).
Effectful collaborators (uuid generation, DOM, `window.open`) are factored out:
fresh identifiers are injected as parameters, and each export is modeled by the
data it emits (its list of output lines, or the list of tasks it creates one
record/URL for).
-/

namespace Gullu

/-- Task categories, from `src/components/types.ts`. -/
inductive Category
  | Focus
  | Admin
  | Creative
  | Break
deriving DecidableEq

/-- The five palette tokens, from `src/components/types.ts`. -/
inductive Color
  | blue
  | teal
  | orange
  | cyan
  | pink
deriving DecidableEq

/-- `PlannerTask` from `src/components/types.ts`. `startMin = none` models the JS
`null` unplaced sentinel; all numeric fields are JS numbers holding integers. -/
structure PlannerTask where
  id : String
  title : String
  icon : String
  durationMin : Int
  category : Category
  color : Color
  startMin : Option Int
deriving DecidableEq

/-- JS `a % b`: remainder truncated toward zero (the sign follows the dividend). -/
def jsMod (a b : Int) : Int := Int.tmod a b

/-- JS `Math.floor(a / b)` on integers: floor division. -/
def jsFloorDiv (a b : Int) : Int := Int.fdiv a b

/-- JS `Math.round(x / 5) * 5` on an integer `x`. `x / 5` has fractional part in
0, .2, .4, .6, .8 (never exactly one half), and `Math.round y = ⌊y + 1/2⌋`, so the
rounded quotient is `⌊(2x + 5) / 10⌋`. -/
def roundTo5 (x : Int) : Int := (Int.fdiv (2 * x + 5) 10) * 5

/-- `onSchedule` from `src/app/page.tsx`: set the matching task's `startMin`. -/
def onSchedule (tasks : List PlannerTask) (taskId : String) (startMin : Int) :
    List PlannerTask :=
  tasks.map fun t => if t.id = taskId then { t with startMin := some startMin } else t

/-- `onUnschedule` from `src/app/page.tsx`: set the matching task's `startMin` to null. -/
def onUnschedule (tasks : List PlannerTask) (taskId : String) : List PlannerTask :=
  tasks.map fun t => if t.id = taskId then { t with startMin := none } else t

/-- `onDelete` from `src/app/page.tsx`: drop the matching task. -/
def onDelete (tasks : List PlannerTask) (taskId : String) : List PlannerTask :=
  tasks.filter fun t => t.id ≠ taskId

/-- `onMoveTask` from `src/app/page.tsx`: early-return when the id is absent, else
set the matching task's `startMin`, keeping its duration. -/
def onMoveTask (tasks : List PlannerTask) (id : String) (startMin : Int) :
    List PlannerTask :=
  match tasks.find? (fun x => decide (x.id = id)) with
  | none => tasks
  | some _ => tasks.map fun x => if x.id = id then { x with startMin := some startMin } else x

/-- `onResizeTask` from `src/app/page.tsx`: set both `startMin` and `durationMin`
of the matching task. -/
def onResizeTask (tasks : List PlannerTask) (id : String) (startMin durationMin : Int) :
    List PlannerTask :=
  tasks.map fun x =>
    if x.id = id then { x with startMin := some startMin, durationMin := durationMin } else x

/-- `onSplitTask` from `src/app/page.tsx` (lines 113-135). The two `uuid()` calls are
injected as `idA` and `idB`; the JS reassignments of `split` become chained `let`s;
the source's unused `end` binding is omitted. -/
def onSplitTask (tasks : List PlannerTask) (id : String) (splitAtMin : Int)
    (idA idB : String) : List PlannerTask :=
  match tasks.find? (fun x => decide (x.id = id)) with
  | none => tasks
  | some t =>
    match t.startMin with
    | none => tasks
    | some start =>
      let s := start
      let e0 := start + t.durationMin
      let e := if e0 ≤ s then e0 + 24 * 60 else e0
      let split1 := if splitAtMin < s then splitAtMin + 24 * 60 else splitAtMin
      let split := if split1 > e then e else split1
      let durA := max 5 (roundTo5 (split - s))
      let durB := max 5 (t.durationMin - durA)
      let startB := jsMod (start + durA) (24 * 60)
      let a := { t with id := idA, durationMin := durA }
      let b := { t with id := idB, startMin := some startB, durationMin := durB }
      tasks.flatMap fun x => if x.id = id then [a, b] else [x]

/-- `within` from `src/app/page.tsx` (lines 137-142): circular containment test. The
JS function mutates its `nowM` parameter; the mutation becomes the `let n`. -/
def within (nowM s d : Int) : Bool :=
  let e0 := s + d
  let e := if e0 ≤ s then e0 + 24 * 60 else e0
  let n := if nowM < s then nowM + 24 * 60 else nowM
  decide (n ≥ s) && decide (n ≤ e)

/-- `remaining` from `src/app/page.tsx` (lines 148-151), for a placed selected task:
seconds until the task end, from minute-granularity boundaries minus the live second. -/
def remaining (startMin durationMin nowMin currentSecond : Int) : Int :=
  jsMod (startMin + durationMin - nowMin + 24 * 60) (24 * 60) * 60 - currentSecond

/-- JS truthiness of an integer: `0` is falsy. -/
def truthyInt (n : Int) : Bool := decide (n ≠ 0)

/-- JS truthiness of a `number | null` value: `null` and `0` are both falsy. -/
def truthy : Option Int → Bool
  | none => false
  | some n => truthyInt n

/-- JS `x !== undefined` for `x : number | null`: a number and `null` both differ
from `undefined`, so the comparison is constantly true. This is the test used by
the `scheduledTasks` filters in `src/lib/export.ts` (lines 82 and 95). -/
def neqUndefined : Option Int → Bool := fun _ => true

/-- JS `x !== undefined` for `x : number`: constantly true. -/
def numNeqUndefined : Int → Bool := fun _ => true

/-- `String.padStart(2, '0')`. -/
def padStart2 (s : String) : String :=
  if s.length ≥ 2 then s else String.mk (List.replicate (2 - s.length) '0') ++ s

/-- `minutesToTime` from `src/lib/export.ts` (lines 18-22): `HHmm` rendering of a
minutes-from-midnight value. -/
def minutesToTime (minutes : Int) : String :=
  padStart2 (toString (jsFloorDiv minutes 60)) ++ padStart2 (toString (jsMod minutes 60))

/-- The display name of a category, as interpolated into ICS lines. -/
def Category.name : Category → String
  | .Focus => "Focus"
  | .Admin => "Admin"
  | .Creative => "Creative"
  | .Break => "Break"

/-- The VEVENT lines `generateICS` pushes for one task (src/lib/export.ts lines
36-55). The two leading `if` branches transcribe the truthiness guard
`if (!task.startMin || !task.durationMin) return`: a `null` or zero `startMin`, or a
zero `durationMin`, contributes nothing. -/
def eventLines (dateStr : String) (task : PlannerTask) : List String :=
  match task.startMin with
  | none => []
  | some sm =>
    if sm = 0 then []
    else if task.durationMin = 0 then []
    else
      let startTime := minutesToTime sm
      let endTime := minutesToTime (sm + task.durationMin)
      let uid := "task-" ++ task.id ++ "-" ++ dateStr ++ "@planner.app"
      ["BEGIN:VEVENT",
       "UID:" ++ uid,
       "DTSTART:" ++ dateStr ++ "T" ++ startTime ++ "00",
       "DTEND:" ++ dateStr ++ "T" ++ endTime ++ "00",
       "SUMMARY:" ++ task.title,
       "DESCRIPTION:" ++ task.icon ++ " " ++ task.category.name ++ " task - " ++
         toString task.durationMin ++ "min",
       "CATEGORIES:" ++ task.category.name,
       "STATUS:CONFIRMED",
       "TRANSP:OPAQUE",
       "END:VEVENT"]

/-- `generateICS` from `src/lib/export.ts` (lines 25-59), as its list of output lines
(the source joins them with CRLF before returning). -/
def generateICS (tasks : List PlannerTask) (dateStr : String) : List String :=
  (["BEGIN:VCALENDAR",
    "VERSION:2.0",
    "PRODID:-//Planner App//Task Export//EN",
    "CALSCALE:GREGORIAN",
    "METHOD:PUBLISH"]
   ++ tasks.flatMap (eventLines dateStr))
  ++ ["END:VCALENDAR"]

/-- The `scheduledTasks` filter shared by `exportTasks` and `exportToGoogleCalendar`
(src/lib/export.ts lines 82 and 95):
`tasks.filter(task => task.startMin !== undefined && task.durationMin !== undefined)`. -/
def scheduledTasksFilter (tasks : List PlannerTask) : List PlannerTask :=
  tasks.filter fun t => neqUndefined t.startMin && numNeqUndefined t.durationMin

/-- The tasks `exportToGoogleCalendar` (src/lib/export.ts lines 94-119) opens one
calendar URL for: its `forEach` over the filtered list has no further guard, so every
element of this list yields a `window.open` call. -/
def googleCalendarTasks (tasks : List PlannerTask) : List PlannerTask :=
  scheduledTasksFilter tasks

/-- The task records `exportJSON` (src/app/page.tsx lines 179-191) serializes into
the downloaded payload: the whole day collection, with no filter. -/
def exportJSONTasks (tasks : List PlannerTask) : List PlannerTask :=
  tasks

/-- Concrete task for the split-algorithm witness: the spec's own example, a
23:50-00:50 task. -/
def sampleSplitTask : PlannerTask :=
  { id := "t1", title := "Write report", icon := "W", durationMin := 60,
    category := Category.Focus, color := Color.blue, startMin := some 1430 }

/-- Concrete task starting at midnight-minute 0 with 60 minutes duration. -/
def sumSplitTask : PlannerTask :=
  { id := "t2", title := "Deep work", icon := "D", durationMin := 60,
    category := Category.Focus, color := Color.teal, startMin := some 0 }

/-- Concrete unplaced task. -/
def unplacedTask : PlannerTask :=
  { id := "u1", title := "Inbox", icon := "I", durationMin := 30,
    category := Category.Admin, color := Color.orange, startMin := none }

/-- Concrete placed task starting exactly at midnight (`startMin = 0`). -/
def midnightTask : PlannerTask :=
  { id := "m1", title := "Night shift", icon := "N", durationMin := 45,
    category := Category.Break, color := Color.cyan, startMin := some 0 }

/-- Concrete ordinarily-placed task (09:00, 90 minutes). -/
def morningTask : PlannerTask :=
  { id := "g1", title := "Standup", icon := "S", durationMin := 90,
    category := Category.Creative, color := Color.pink, startMin := some 540 }

end Gullu

namespace Gullu

/-- A `map` whose function fixes every element of the list is the identity. -/
theorem map_fix {α : Type} (l : List α) (f : α → α) (h : ∀ x ∈ l, f x = x) :
    l.map f = l := by
  induction l with
  | nil => rfl
  | cons a l ih =>
    rw [List.map_cons, h a (List.mem_cons_self a l),
      ih fun x hx => h x (List.mem_cons_of_mem a hx)]

/-- A `flatMap` sending every element of the list to its singleton is the identity. -/
theorem flatMap_fix {α : Type} (l : List α) (g : α → List α) (h : ∀ x ∈ l, g x = [x]) :
    l.flatMap g = l := by
  induction l with
  | nil => rfl
  | cons a l ih =>
    rw [List.flatMap_cons, h a (List.mem_cons_self a l),
      ih fun x hx => h x (List.mem_cons_of_mem a hx)]
    rfl

/-- `find?` over `pre ++ t :: post` yields `t` when nothing in `pre` matches. -/
theorem find?_append_cons {α : Type} (p : α → Bool) (pre post : List α) (t : α)
    (hpre : ∀ x ∈ pre, p x = false) (ht : p t = true) :
    (pre ++ t :: post).find? p = some t := by
  induction pre with
  | nil => exact List.find?_cons_of_pos _ ht
  | cons a l ih =>
    rw [List.cons_append, List.find?_cons_of_neg _ (by simp [hpre a (List.mem_cons_self a l)])]
    exact ih fun x hx => hpre x (List.mem_cons_of_mem a hx)

/-- A `flatMap` that fixes everything in `pre` and `post` rewrites only `t`. -/
theorem flatMap_replace {α : Type} (g : α → List α) (pre post : List α) (t : α)
    (hpre : ∀ x ∈ pre, g x = [x]) (hpost : ∀ x ∈ post, g x = [x]) :
    (pre ++ t :: post).flatMap g = pre ++ g t ++ post := by
  rw [List.flatMap_append, List.flatMap_cons, flatMap_fix pre g hpre,
    flatMap_fix post g hpost, List.append_assoc]

/-- JS `%` agrees with mathematical `mod` on nonnegative operands. -/
theorem jsMod_eq_emod (a b : Int) (ha : 0 ≤ a) (hb : 0 ≤ b) : jsMod a b = a % b :=
  Int.tmod_eq_emod ha hb

/-- Core split equation: with the target located between `pre` and `post` and no id
collisions, `onSplitTask` replaces it in place by the two computed halves. -/
theorem onSplitTask_eq (pre post : List PlannerTask) (t : PlannerTask)
    (s splitAtMin : Int) (idA idB : String) (hs : t.startMin = some s)
    (hpre : ∀ x ∈ pre, x.id ≠ t.id) (hpost : ∀ x ∈ post, x.id ≠ t.id) :
    onSplitTask (pre ++ t :: post) t.id splitAtMin idA idB =
      let e := if s + t.durationMin ≤ s then s + t.durationMin + 24 * 60
               else s + t.durationMin
      let split1 := if splitAtMin < s then splitAtMin + 24 * 60 else splitAtMin
      let split := if split1 > e then e else split1
      let durA := max 5 (roundTo5 (split - s))
      let durB := max 5 (t.durationMin - durA)
      let startB := jsMod (s + durA) (24 * 60)
      pre ++ [{ t with id := idA, durationMin := durA },
              { t with id := idB, startMin := some startB, durationMin := durB }] ++ post := by
  have hfind : (pre ++ t :: post).find? (fun x => decide (x.id = t.id)) = some t :=
    find?_append_cons _ pre post t (fun x hx => by simp [hpre x hx]) (by simp)
  simp only [onSplitTask, hfind, hs]
  rw [flatMap_replace _ pre post t (fun x hx => by simp [hpre x hx])
    (fun x hx => by simp [hpost x hx])]
  simp

/-- Conditional exactness of the split duration sum: when the unfloored second half
is at least 5 minutes, the two halves sum exactly to the original duration. -/
theorem split_sum_cond (d durA : Int) (h : 5 ≤ d - durA) : durA + max 5 (d - durA) = d := by
  rw [max_eq_right h]
  omega

/-- C1: splitting a placed task follows the specified algorithm: with `s = startMin`
and `e = s + durationMin` (extended by 1440 when `e ≤ s`), the split point normalized
by adding 1440 when below `s` and clamped to `e` when above, the task is replaced in
place (all other tasks keeping their relative order) by two fresh-id halves: the
first keeps `startMin` with duration `durA = max 5 (roundTo5 (split - s))`, the
second starts at `(s + durA) mod 1440` with duration
`durB = max 5 (durationMin - durA)`. -/
theorem split_follows_algorithm (pre post : List PlannerTask) (t : PlannerTask)
    (s splitAtMin : Int) (idA idB : String) (hs : t.startMin = some s) (hs0 : 0 ≤ s)
    (hpre : ∀ x ∈ pre, x.id ≠ t.id) (hpost : ∀ x ∈ post, x.id ≠ t.id) :
    onSplitTask (pre ++ t :: post) t.id splitAtMin idA idB =
      let e := if s + t.durationMin ≤ s then s + t.durationMin + 1440
               else s + t.durationMin
      let split1 := if splitAtMin < s then splitAtMin + 1440 else splitAtMin
      let split := if split1 > e then e else split1
      let durA := max 5 (roundTo5 (split - s))
      let durB := max 5 (t.durationMin - durA)
      let startB := (s + durA) % 1440
      pre ++ [{ t with id := idA, durationMin := durA },
              { t with id := idB, startMin := some startB, durationMin := durB }] ++ post := by
  rw [onSplitTask_eq pre post t s splitAtMin idA idB hs hpre hpost]
  have h1 : (24 : Int) * 60 = 1440 := by norm_num
  have hrw : ∀ x : Int, jsMod (s + max 5 x) 1440 = (s + max 5 x) % 1440 := by
    intro x
    refine jsMod_eq_emod _ _ ?_ (by norm_num)
    have h5 : (5 : Int) ≤ max 5 x := le_max_left 5 x
    omega
  simp only [h1, hrw]

/-- C1 witness: the spec's example, a 23:50-00:50 task split at raw minute 10
(normalized 1450), yields halves (start 1430, dur 20) and (start 10, dur 40). -/
theorem split_follows_algorithm_witness :
    sampleSplitTask.startMin = some 1430 ∧
    onSplitTask [sampleSplitTask] "t1" 10 "a1" "b1" =
      [{ sampleSplitTask with id := "a1", durationMin := 20 },
       { sampleSplitTask with id := "b1", startMin := some 10, durationMin := 40 }] := by
  refine ⟨rfl, ?_⟩
  have h := split_follows_algorithm [] [] sampleSplitTask 1430 10 "a1" "b1" rfl
    (by norm_num) (by simp) (by simp)
  exact h.trans (by decide)

/-- C2 counterexample: splitting the 60-minute task starting at minute 0 at its own
end produces halves of 60 and 5 minutes: their sum 65 differs from the original 60. -/
theorem split_sum_counterexample :
    sumSplitTask.durationMin = 60 ∧
    (onSplitTask [sumSplitTask] "t2" 60 "a2" "b2").map PlannerTask.durationMin = [60, 5] ∧
    (60 : Int) + 5 ≠ 60 := by decide

/-- C2 (amended): splitting a placed task copies `title`, `icon`, `category` and
`color` verbatim into both halves (and the first half also keeps `startMin`); the
halves' durations sum exactly to the original `durationMin` whenever the remainder
left for the second half is at least 5 minutes (otherwise the second half is floored
to 5 and the sum exceeds the original). -/
theorem split_copies_fields (pre post : List PlannerTask) (t : PlannerTask)
    (s splitAtMin : Int) (idA idB : String) (hs : t.startMin = some s)
    (hpre : ∀ x ∈ pre, x.id ≠ t.id) (hpost : ∀ x ∈ post, x.id ≠ t.id) :
    ∃ a b, onSplitTask (pre ++ t :: post) t.id splitAtMin idA idB = pre ++ a :: b :: post ∧
      a.title = t.title ∧ b.title = t.title ∧
      a.icon = t.icon ∧ b.icon = t.icon ∧
      a.category = t.category ∧ b.category = t.category ∧
      a.color = t.color ∧ b.color = t.color ∧
      a.startMin = t.startMin ∧
      (5 ≤ t.durationMin - a.durationMin → a.durationMin + b.durationMin = t.durationMin) := by
  have h := onSplitTask_eq pre post t s splitAtMin idA idB hs hpre hpost
  simp only [List.append_assoc, List.cons_append, List.nil_append] at h
  exact ⟨_, _, h, rfl, rfl, rfl, rfl, rfl, rfl, rfl, rfl, rfl,
    fun hge => split_sum_cond t.durationMin _ hge⟩

/-- A `UID:` line never collides with the VEVENT opener. -/
theorem uid_ne_begin (x : String) : "UID:" ++ x ≠ "BEGIN:VEVENT" := by
  intro h
  have h2 := congrArg String.data h
  rw [String.data_append] at h2
  simp at h2

/-- A `DTSTART:` line never collides with the VEVENT opener. -/
theorem dtstart_ne_begin (x : String) : "DTSTART:" ++ x ≠ "BEGIN:VEVENT" := by
  intro h
  have h2 := congrArg String.data h
  rw [String.data_append] at h2
  simp at h2

/-- A `DTEND:` line never collides with the VEVENT opener. -/
theorem dtend_ne_begin (x : String) : "DTEND:" ++ x ≠ "BEGIN:VEVENT" := by
  intro h
  have h2 := congrArg String.data h
  rw [String.data_append] at h2
  simp at h2

/-- A `SUMMARY:` line never collides with the VEVENT opener. -/
theorem summary_ne_begin (x : String) : "SUMMARY:" ++ x ≠ "BEGIN:VEVENT" := by
  intro h
  have h2 := congrArg String.data h
  rw [String.data_append] at h2
  simp at h2

/-- A `DESCRIPTION:` line never collides with the VEVENT opener. -/
theorem description_ne_begin (x : String) : "DESCRIPTION:" ++ x ≠ "BEGIN:VEVENT" := by
  intro h
  have h2 := congrArg String.data h
  rw [String.data_append] at h2
  simp at h2

/-- A `CATEGORIES:` line never collides with the VEVENT opener. -/
theorem categories_ne_begin (x : String) : "CATEGORIES:" ++ x ≠ "BEGIN:VEVENT" := by
  intro h
  have h2 := congrArg String.data h
  rw [String.data_append] at h2
  simp at h2

/-- An unplaced task contributes no VEVENT lines. -/
theorem eventLines_of_none (dateStr : String) (t : PlannerTask) (h : t.startMin = none) :
    eventLines dateStr t = [] := by
  simp [eventLines, h]

/-- A task starting exactly at minute 0 contributes no VEVENT lines. -/
theorem eventLines_of_zero (dateStr : String) (t : PlannerTask) (h : t.startMin = some 0) :
    eventLines dateStr t = [] := by
  simp [eventLines, h]

/-- Dropping a task whose VEVENT lines are empty leaves the ICS output unchanged. -/
theorem generateICS_drop (dateStr : String) (pre post : List PlannerTask)
    (t : PlannerTask) (h : eventLines dateStr t = []) :
    generateICS (pre ++ t :: post) dateStr = generateICS (pre ++ post) dateStr := by
  simp [generateICS, List.flatMap_append, List.flatMap_cons, h]

/-- One task contributes exactly one `BEGIN:VEVENT` line when its `startMin` and
`durationMin` are both truthy, and none otherwise. -/
theorem count_eventLines (dateStr : String) (t : PlannerTask) :
    (eventLines dateStr t).count "BEGIN:VEVENT" =
      if truthy t.startMin && truthyInt t.durationMin then 1 else 0 := by
  cases hsm : t.startMin with
  | none => simp [eventLines, truthy, hsm]
  | some sm =>
    by_cases h0 : sm = 0
    · simp [eventLines, truthy, truthyInt, hsm, h0]
    · by_cases hd : t.durationMin = 0
      · simp [eventLines, truthy, truthyInt, hsm, h0, hd]
      · simp only [eventLines, hsm, h0, hd, if_false]
        simp [truthy, truthyInt, h0, hd, List.count_cons, String.append_assoc,
          uid_ne_begin, dtstart_ne_begin, dtend_ne_begin, summary_ne_begin,
          description_ne_begin, categories_ne_begin]

/-- The VEVENT count of a whole export is the number of truthy-placed tasks. -/
theorem count_flatMap_eventLines (dateStr : String) (tasks : List PlannerTask) :
    (tasks.flatMap (eventLines dateStr)).count "BEGIN:VEVENT" =
      (tasks.filter fun t => truthy t.startMin && truthyInt t.durationMin).length := by
  induction tasks with
  | nil => rfl
  | cons t ts ih =>
    rw [List.flatMap_cons, List.count_append, count_eventLines, ih, List.filter_cons]
    by_cases h : (truthy t.startMin && truthyInt t.durationMin) = true
    · simp [h, Nat.add_comm]
    · simp [h]

/-- Any line of some task's VEVENT block is a line of the whole ICS output. -/
theorem mem_generateICS (dateStr : String) (tasks : List PlannerTask) (t : PlannerTask)
    (x : String) (ht : t ∈ tasks) (hx : x ∈ eventLines dateStr t) :
    x ∈ generateICS tasks dateStr := by
  unfold generateICS
  exact List.mem_append_left _ (List.mem_append_right _ (List.mem_flatMap.mpr ⟨t, ht, hx⟩))

/-- The DTSTART line of an emitted task is in its VEVENT block. -/
theorem dtstart_mem_eventLines (dateStr : String) (t : PlannerTask) (sm : Int)
    (hsm : t.startMin = some sm) (h0 : sm ≠ 0) (hd : t.durationMin ≠ 0) :
    ("DTSTART:" ++ dateStr ++ "T" ++ minutesToTime sm ++ "00") ∈ eventLines dateStr t := by
  simp [eventLines, hsm, h0, hd]

/-- The DTEND line of an emitted task is in its VEVENT block. -/
theorem dtend_mem_eventLines (dateStr : String) (t : PlannerTask) (sm : Int)
    (hsm : t.startMin = some sm) (h0 : sm ≠ 0) (hd : t.durationMin ≠ 0) :
    ("DTEND:" ++ dateStr ++ "T" ++ minutesToTime (sm + t.durationMin) ++ "00")
      ∈ eventLines dateStr t := by
  simp [eventLines, hsm, h0, hd]

/-- C3 counterexample: an unplaced task (`startMin = null`) passes the
`!== undefined` filter of the Google-Calendar export, so one calendar URL is opened
for it, and it appears as a record in the JSON export payload. -/
theorem export_unplaced_counterexample :
    unplacedTask.startMin = none ∧
    googleCalendarTasks [unplacedTask] = [unplacedTask] ∧
    unplacedTask ∈ exportJSONTasks [unplacedTask] := by
  decide

/-- C3 (amended): only the ICS generator actually restricts to placed tasks — an
unplaced task contributes no VEVENT to the ICS output — while the Google-Calendar
export's filter compares the `null` sentinel against `undefined` and therefore keeps
every task (one URL per element, unplaced included), and the JSON export serializes
the entire collection unchanged. -/
theorem exports_and_unplaced (dateStr : String) (pre post : List PlannerTask)
    (t : PlannerTask) (h : t.startMin = none) :
    generateICS (pre ++ t :: post) dateStr = generateICS (pre ++ post) dateStr ∧
    googleCalendarTasks (pre ++ t :: post) = pre ++ t :: post ∧
    exportJSONTasks (pre ++ t :: post) = pre ++ t :: post := by
  refine ⟨generateICS_drop dateStr pre post t (eventLines_of_none dateStr t h), ?_, rfl⟩
  exact List.filter_eq_self.mpr fun x _ => by simp [neqUndefined, numNeqUndefined]

/-- C3 witness: with one unplaced and one placed task, the ICS output equals the
output without the unplaced task, while the Google and JSON exports keep both. -/
theorem exports_and_unplaced_witness :
    unplacedTask.startMin = none ∧
    (generateICS [unplacedTask, morningTask] "20251012" =
        generateICS [morningTask] "20251012" ∧
      googleCalendarTasks [unplacedTask, morningTask] = [unplacedTask, morningTask] ∧
      exportJSONTasks [unplacedTask, morningTask] = [unplacedTask, morningTask]) :=
  ⟨rfl, exports_and_unplaced "20251012" [] [morningTask] unplacedTask rfl⟩

/-- C10: `generateICS` emits one VEVENT per task exactly when both `startMin` and
`durationMin` are truthy (so a placed task with `startMin = 0` is silently omitted,
leaving the output as if the task were absent), and every emitted event carries
DTSTART at `startMin` and DTEND at `startMin + durationMin` on the same date. -/
theorem generateICS_vevent_policy (dateStr : String) (tasks : List PlannerTask) :
    ((generateICS tasks dateStr).count "BEGIN:VEVENT" =
      (tasks.filter fun t => truthy t.startMin && truthyInt t.durationMin).length) ∧
    (∀ pre post t, tasks = pre ++ t :: post → t.startMin = some 0 →
      generateICS tasks dateStr = generateICS (pre ++ post) dateStr) ∧
    (∀ t ∈ tasks, ∀ sm : Int, t.startMin = some sm → sm ≠ 0 → t.durationMin ≠ 0 →
      ("DTSTART:" ++ dateStr ++ "T" ++ minutesToTime sm ++ "00")
          ∈ generateICS tasks dateStr ∧
        ("DTEND:" ++ dateStr ++ "T" ++ minutesToTime (sm + t.durationMin) ++ "00")
          ∈ generateICS tasks dateStr) := by
  refine ⟨?_, ?_, ?_⟩
  · unfold generateICS
    rw [List.count_append, List.count_append, count_flatMap_eventLines]
    have h1 : List.count "BEGIN:VEVENT" ["BEGIN:VCALENDAR", "VERSION:2.0",
        "PRODID:-//Planner App//Task Export//EN", "CALSCALE:GREGORIAN",
        "METHOD:PUBLISH"] = 0 := by decide
    have h2 : List.count "BEGIN:VEVENT" ["END:VCALENDAR"] = 0 := by decide
    rw [h1, h2]
    omega
  · intro pre post t heq h0
    subst heq
    exact generateICS_drop dateStr pre post t (eventLines_of_zero dateStr t h0)
  · intro t ht sm hsm h0 hd
    exact ⟨mem_generateICS dateStr tasks t _ ht (dtstart_mem_eventLines dateStr t sm hsm h0 hd),
      mem_generateICS dateStr tasks t _ ht (dtend_mem_eventLines dateStr t sm hsm h0 hd)⟩

/-- C10 witness: a midnight-start task is omitted (leaving one VEVENT from the other
task), and the emitted event's DTSTART renders 09:00 on the requested date. -/
theorem generateICS_vevent_policy_witness :
    midnightTask.startMin = some 0 ∧
    (generateICS [midnightTask, morningTask] "20251012").count "BEGIN:VEVENT" = 1 ∧
    generateICS [midnightTask, morningTask] "20251012" =
      generateICS [morningTask] "20251012" ∧
    "DTSTART:20251012T090000" ∈ generateICS [midnightTask, morningTask] "20251012" := by
  have h := generateICS_vevent_policy "20251012" [midnightTask, morningTask]
  refine ⟨rfl, h.1.trans (by decide), h.2.1 [] [morningTask] midnightTask rfl rfl, ?_⟩
  have h3 := (h.2.2 morningTask (by simp [morningTask]) 540 rfl (by decide) (by decide)).1
  have heq : ("DTSTART:" ++ "20251012" ++ "T" ++ minutesToTime 540 ++ "00") =
      "DTSTART:20251012T090000" := by decide
  exact heq ▸ h3

/-- `roundTo5` is within 2 (below) and 3 (above) of its argument. -/
theorem roundTo5_bounds (d : Int) : d - 2 ≤ roundTo5 d ∧ roundTo5 d ≤ d + 3 := by
  unfold roundTo5
  rw [Int.fdiv_eq_ediv _ (by norm_num)]
  omega

/-- When the normalized split point reaches the task end, the clamped second-half
duration is exactly the 5-minute floor. -/
theorem clamp_durB_eq_five (s d split1 : Int) (hd : 0 < d) (hclamp : s + d ≤ split1) :
    max 5 (d - max 5 (roundTo5
      ((if split1 > (if s + d ≤ s then s + d + 24 * 60 else s + d)
        then (if s + d ≤ s then s + d + 24 * 60 else s + d) else split1) - s))) = 5 := by
  have hne : ¬ (s + d ≤ s) := by omega
  simp only [if_neg hne]
  have hsplit : (if split1 > s + d then s + d else split1) = s + d := by
    by_cases hgt : split1 > s + d
    · rw [if_pos hgt]
    · rw [if_neg hgt]
      omega
  rw [hsplit, add_sub_cancel_left]
  have hround := (roundTo5_bounds d).1
  have hAge : d - 2 ≤ max 5 (roundTo5 d) := le_trans hround (le_max_right _ _)
  exact max_eq_left (by omega)

/-- C4: both halves produced by a split have duration at least 5, and when the
normalized split point lies at or beyond the task's end (so the clamp fires), the
second half's duration is exactly 5 — never zero or negative. -/
theorem split_floor_five (pre post : List PlannerTask) (t : PlannerTask)
    (s splitAtMin : Int) (idA idB : String) (hs : t.startMin = some s)
    (hd : 0 < t.durationMin)
    (hpre : ∀ x ∈ pre, x.id ≠ t.id) (hpost : ∀ x ∈ post, x.id ≠ t.id) :
    ∃ a b, onSplitTask (pre ++ t :: post) t.id splitAtMin idA idB =
        pre ++ a :: b :: post ∧
      5 ≤ a.durationMin ∧ 5 ≤ b.durationMin ∧
      (s + t.durationMin ≤ (if splitAtMin < s then splitAtMin + 1440 else splitAtMin) →
        b.durationMin = 5) := by
  have h := onSplitTask_eq pre post t s splitAtMin idA idB hs hpre hpost
  simp only [List.append_assoc, List.cons_append, List.nil_append] at h
  refine ⟨_, _, h, le_max_left _ _, le_max_left _ _, fun hclamp => ?_⟩
  have hclamp24 : s + t.durationMin ≤
      (if splitAtMin < s then splitAtMin + 24 * 60 else splitAtMin) := by
    rw [show (24 : Int) * 60 = 1440 from by norm_num]
    exact hclamp
  exact clamp_durB_eq_five s t.durationMin _ hd hclamp24

/-- C4 witness: splitting the 60-minute task starting at 0 at raw minute 100 (beyond
its end) gives a first half of 60 and a floored second half of exactly 5 minutes. -/
theorem split_floor_five_witness :
    sumSplitTask.startMin = some 0 ∧ 0 < sumSplitTask.durationMin ∧
    (∃ a b, onSplitTask [sumSplitTask] "t2" 100 "a4" "b4" = [] ++ a :: b :: [] ∧
      5 ≤ a.durationMin ∧ 5 ≤ b.durationMin ∧
      (0 + sumSplitTask.durationMin ≤
          (if (100 : Int) < 0 then 100 + 1440 else 100) → b.durationMin = 5)) ∧
    (onSplitTask [sumSplitTask] "t2" 100 "a4" "b4").map PlannerTask.durationMin =
      [60, 5] := by
  refine ⟨rfl, by decide, ?_, by decide⟩
  exact split_floor_five [] [] sumSplitTask 0 100 "a4" "b4" rfl (by decide)
    (by simp) (by simp)

/-- C5: `within` is true at the start minute and at the end minute (inclusive
boundaries) for every start in [0, 1439] and duration at least 1, and holds in the
midnight-crossing case start 1400, duration 100, now 30. -/
theorem within_boundaries (s d : Int) (h0 : 0 ≤ s) (h1 : s ≤ 1439) (hd : 1 ≤ d) :
    within s s d = true ∧ within ((s + d) % 1440) s d = true ∧
    within 30 1400 100 = true := by
  refine ⟨?_, ?_, by decide⟩
  · simp only [within, Bool.and_eq_true, decide_eq_true_eq, ge_iff_le]
    constructor
    · split_ifs <;> omega
    · split_ifs <;> omega
  · simp only [within, Bool.and_eq_true, decide_eq_true_eq, ge_iff_le]
    constructor
    · split_ifs <;> omega
    · split_ifs <;> omega

/-- C5 witness: a 09:00 task of 60 minutes is within at 540 and at 600, and the
midnight-crossing example holds. -/
theorem within_boundaries_witness :
    ((0 : Int) ≤ 540 ∧ (540 : Int) ≤ 1439 ∧ (1 : Int) ≤ 60) ∧
    within 540 540 60 = true ∧ within ((540 + 60) % 1440) 540 60 = true ∧
    within 30 1400 100 = true := by
  have h := within_boundaries 540 60 (by norm_num) (by norm_num) (by norm_num)
  exact ⟨⟨by norm_num, by norm_num, by norm_num⟩, h.1, h.2.1, h.2.2⟩

/-- C6: every mutation referencing a task id absent from the collection returns the
collection unchanged (and, being total functions, none of them can throw). -/
theorem mutations_unknown_id (tasks : List PlannerTask) (badId : String)
    (m rs rd sp : Int) (idA idB : String) (h : ∀ t ∈ tasks, t.id ≠ badId) :
    onSchedule tasks badId m = tasks ∧
    onUnschedule tasks badId = tasks ∧
    onDelete tasks badId = tasks ∧
    onMoveTask tasks badId m = tasks ∧
    onResizeTask tasks badId rs rd = tasks ∧
    onSplitTask tasks badId sp idA idB = tasks := by
  have hfind : tasks.find? (fun x => decide (x.id = badId)) = none :=
    List.find?_eq_none.mpr fun x hx => by simp [h x hx]
  refine ⟨map_fix _ _ fun x hx => by simp [h x hx],
    map_fix _ _ fun x hx => by simp [h x hx],
    List.filter_eq_self.mpr fun x hx => by simp [h x hx],
    ?_, map_fix _ _ fun x hx => by simp [h x hx], ?_⟩
  · unfold onMoveTask
    rw [hfind]
  · unfold onSplitTask
    rw [hfind]

/-- C6 witness: all six mutations with an id not in the collection are no-ops on a
concrete singleton collection. -/
theorem mutations_unknown_id_witness :
    (∀ t ∈ [morningTask], t.id ≠ "zzz") ∧
    onSchedule [morningTask] "zzz" 100 = [morningTask] ∧
    onUnschedule [morningTask] "zzz" = [morningTask] ∧
    onDelete [morningTask] "zzz" = [morningTask] ∧
    onMoveTask [morningTask] "zzz" 100 = [morningTask] ∧
    onResizeTask [morningTask] "zzz" 200 30 = [morningTask] ∧
    onSplitTask [morningTask] "zzz" 45 "w1" "w2" = [morningTask] := by
  have h := mutations_unknown_id [morningTask] "zzz" 100 200 30 45 "w1" "w2" (by decide)
  exact ⟨by decide, h.1, h.2.1, h.2.2.1, h.2.2.2.1, h.2.2.2.2.1, h.2.2.2.2.2⟩

/-- C7: moving a task updates only the targeted task's `startMin`; its other fields
and every other task are unchanged, so a move never changes any duration. -/
theorem onMoveTask_frame (pre post : List PlannerTask) (t : PlannerTask)
    (newStart : Int)
    (hpre : ∀ x ∈ pre, x.id ≠ t.id) (hpost : ∀ x ∈ post, x.id ≠ t.id) :
    onMoveTask (pre ++ t :: post) t.id newStart =
      pre ++ { t with startMin := some newStart } :: post ∧
    ({ t with startMin := some newStart } : PlannerTask).durationMin = t.durationMin ∧
    ({ t with startMin := some newStart } : PlannerTask).id = t.id ∧
    ({ t with startMin := some newStart } : PlannerTask).title = t.title ∧
    ({ t with startMin := some newStart } : PlannerTask).icon = t.icon ∧
    ({ t with startMin := some newStart } : PlannerTask).category = t.category ∧
    ({ t with startMin := some newStart } : PlannerTask).color = t.color := by
  refine ⟨?_, rfl, rfl, rfl, rfl, rfl, rfl⟩
  have hfind : (pre ++ t :: post).find? (fun x => decide (x.id = t.id)) = some t :=
    find?_append_cons _ pre post t (fun x hx => by simp [hpre x hx]) (by simp)
  unfold onMoveTask
  rw [hfind, List.map_append, List.map_cons,
    map_fix pre _ (fun x hx => by simp [hpre x hx]),
    map_fix post _ (fun x hx => by simp [hpost x hx]), if_pos rfl]

/-- C7 witness: moving the 09:00 task to minute 300 re-places it and keeps its
90-minute duration. -/
theorem onMoveTask_frame_witness :
    morningTask.durationMin = 90 ∧
    onMoveTask [morningTask] "g1" 300 = [{ morningTask with startMin := some 300 }] ∧
    ({ morningTask with startMin := some 300 } : PlannerTask).durationMin = 90 := by
  have h := onMoveTask_frame [] [] morningTask 300 (by simp) (by simp)
  exact ⟨rfl, h.1, by decide⟩

/-- C8: unscheduling a placed task and then re-placing it at minute `m` yields the
same task with only `startMin` re-assigned to `m`: id, duration, title, category,
color and icon survive the round trip. -/
theorem unschedule_then_schedule (pre post : List PlannerTask) (t : PlannerTask)
    (s m : Int) (hs : t.startMin = some s)
    (hpre : ∀ x ∈ pre, x.id ≠ t.id) (hpost : ∀ x ∈ post, x.id ≠ t.id) :
    onSchedule (onUnschedule (pre ++ t :: post) t.id) t.id m =
      pre ++ { t with startMin := some m } :: post ∧
    ({ t with startMin := some m } : PlannerTask).id = t.id ∧
    ({ t with startMin := some m } : PlannerTask).durationMin = t.durationMin ∧
    ({ t with startMin := some m } : PlannerTask).title = t.title ∧
    ({ t with startMin := some m } : PlannerTask).category = t.category ∧
    ({ t with startMin := some m } : PlannerTask).color = t.color ∧
    ({ t with startMin := some m } : PlannerTask).icon = t.icon ∧
    ({ t with startMin := some m } : PlannerTask).startMin = some m := by
  refine ⟨?_, rfl, rfl, rfl, rfl, rfl, rfl, rfl⟩
  unfold onUnschedule onSchedule
  rw [List.map_append, List.map_cons,
    map_fix pre _ (fun x hx => by simp [hpre x hx]),
    map_fix post _ (fun x hx => by simp [hpost x hx]), if_pos rfl,
    List.map_append, List.map_cons,
    map_fix pre _ (fun x hx => by simp [hpre x hx]),
    map_fix post _ (fun x hx => by simp [hpost x hx]), if_pos rfl]

/-- C8 witness: unscheduling then re-placing the example 23:50 task at 09:00 keeps
every field but the position. -/
theorem unschedule_then_schedule_witness :
    sampleSplitTask.startMin = some 1430 ∧
    onSchedule (onUnschedule [sampleSplitTask] "t1") "t1" 540 =
      [{ sampleSplitTask with startMin := some 540 }] ∧
    ({ sampleSplitTask with startMin := some 540 } : PlannerTask).durationMin =
      sampleSplitTask.durationMin := by
  have h := unschedule_then_schedule [] [] sampleSplitTask 1430 540 rfl
    (by simp) (by simp)
  exact ⟨rfl, h.1, by decide⟩

/-- C9: for a placed selected task the computed remaining time equals
`((start + duration - now + 1440) mod 1440) * 60 - currentSecond` seconds, with
mathematical `mod` (the JS `%` agrees because the dividend is positive in range). -/
theorem remaining_formula (s d nowMin sec : Int) (hs : 0 ≤ s) (hd : 0 ≤ d)
    (hn0 : 0 ≤ nowMin) (hn1 : nowMin ≤ 1439) (hsec0 : 0 ≤ sec) (hsec1 : sec ≤ 59) :
    remaining s d nowMin sec = ((s + d - nowMin + 1440) % 1440) * 60 - sec := by
  unfold remaining
  rw [jsMod_eq_emod _ _ (by omega) (by norm_num)]
  norm_num

/-- C9 witness: a 23:20 task of 100 minutes at 00:30:15 has
(1400 + 100 - 30 + 1440) mod 1440 = 30 minutes, i.e. 1785 remaining seconds. -/
theorem remaining_formula_witness :
    ((0 : Int) ≤ 1400 ∧ (0 : Int) ≤ 100 ∧ (0 : Int) ≤ 30 ∧ (30 : Int) ≤ 1439 ∧
      (0 : Int) ≤ 15 ∧ (15 : Int) ≤ 59) ∧
    remaining 1400 100 30 15 = ((1400 + 100 - 30 + 1440) % 1440) * 60 - 15 ∧
    remaining 1400 100 30 15 = 1785 := by
  have h := remaining_formula 1400 100 30 15 (by norm_num) (by norm_num)
    (by norm_num) (by norm_num) (by norm_num) (by norm_num)
  exact ⟨⟨by norm_num, by norm_num, by norm_num, by norm_num, by norm_num,
    by norm_num⟩, h, by decide⟩

/-- C2 witness: splitting the 60-minute task starting at 0 at minute 30 copies all
cosmetic fields into both halves and, the remainder being 30 ≥ 5, the halves sum
exactly to 60. -/
theorem split_copies_fields_witness :
    sumSplitTask.startMin = some 0 ∧
    (∃ a b, onSplitTask [sumSplitTask] "t2" 30 "a5" "b5" = [] ++ a :: b :: [] ∧
      a.title = sumSplitTask.title ∧ b.title = sumSplitTask.title ∧
      a.icon = sumSplitTask.icon ∧ b.icon = sumSplitTask.icon ∧
      a.category = sumSplitTask.category ∧ b.category = sumSplitTask.category ∧
      a.color = sumSplitTask.color ∧ b.color = sumSplitTask.color ∧
      a.startMin = sumSplitTask.startMin ∧
      (5 ≤ sumSplitTask.durationMin - a.durationMin →
        a.durationMin + b.durationMin = sumSplitTask.durationMin)) ∧
    (onSplitTask [sumSplitTask] "t2" 30 "a5" "b5").map PlannerTask.durationMin =
      [30, 30] := by
  refine ⟨rfl, ?_, by decide⟩
  exact split_copies_fields [] [] sumSplitTask 0 30 "a5" "b5" rfl (by simp) (by simp)

end Gullu
